import Mathlib

/-!
Verification of the bounded local conversation store (`ChatStorage` and the
chat-page facade) of the expensetracker repository, `src/pages/Chat.tsx`.

The TypeScript code is shallowly embedded:
* `ChatThread` / `ChatMessage` become Lean structures mirroring the
  interfaces of `Chat.tsx` (optional `images?: string[]` becomes
  `Option (List String)`).
* `JSON.stringify` is modelled by `Json.stringify` over an explicit `Json`
  value type (fields in object-literal insertion order, matching the
  JavaScript engine); the implicit `parsed as ChatThread[]` cast of the
  dynamically typed code is modelled by the total reader `decodeThread`.
* `localStorage` is modelled by `LocalStorage`, a record of the two fixed
  keys the code uses.  A stored string is abstracted by `JsText`: either
  the `JSON.stringify` image of a `Json` value or a string on which
  `JSON.parse` throws.  `setItem` may fail with a quota error; the quota is
  abstracted as an optional per-write byte limit (`none` = never fails).
* The asynchronous canvas-based `compressImage` is a browser primitive; it
  is modelled by an arbitrary function parameter `compress` (it never
  rejects: on decode failure it resolves with the original payload).
-/

/-- A JSON value as produced by the chat page: strings, (natural) numbers,
arrays and objects with fields in insertion order. -/
inductive Json where
  | str (s : String)
  | num (n : Nat)
  | arr (elems : List Json)
  | obj (fields : List (String × Json))
deriving Repr

/-- Hexadecimal digit character, used for JSON control-character escapes. -/
def hexDigit (n : Nat) : Char :=
  if n < 10 then Char.ofNat (48 + n) else Char.ofNat (87 + n)

/-- How `JSON.stringify` escapes a single character inside a string literal. -/
def escapeChar (c : Char) : String :=
  if c = '"' then "\\\""
  else if c = '\\' then "\\\\"
  else if c = '\x08' then "\\b"
  else if c = '\x09' then "\\t"
  else if c = '\x0a' then "\\n"
  else if c = '\x0c' then "\\f"
  else if c = '\x0d' then "\\r"
  else if c.toNat < 32 then "\\u00" ++ String.mk [hexDigit (c.toNat / 16), hexDigit (c.toNat % 16)]
  else String.singleton c

/-- Escape a list of characters (the body of a JSON string literal). -/
def escapeList : List Char → String
  | [] => ""
  | c :: cs => escapeChar c ++ escapeList cs

/-- Escape the body of a JSON string literal, as `JSON.stringify` does. -/
def escapeString (s : String) : String := escapeList s.data

mutual
/-- `JSON.stringify` (compact form, as used by the save path). -/
def Json.stringify : Json → String
  | .str s => "\"" ++ escapeString s ++ "\""
  | .num n => Nat.repr n
  | .arr l => "[" ++ stringifyArr l ++ "]"
  | .obj fs => "\x7b" ++ stringifyObj fs ++ "\x7d"
/-- Comma-separated serialization of the elements of a JSON array. -/
def stringifyArr : List Json → String
  | [] => ""
  | [j] => Json.stringify j
  | j :: rest => Json.stringify j ++ "," ++ stringifyArr rest
/-- Comma-separated serialization of the fields of a JSON object. -/
def stringifyObj : List (String × Json) → String
  | [] => ""
  | [(k, v)] => "\"" ++ escapeString k ++ "\":" ++ Json.stringify v
  | (k, v) :: rest =>
      "\"" ++ escapeString k ++ "\":" ++ Json.stringify v ++ "," ++ stringifyObj rest
end

/-- `type ChatRole = 'user' | 'assistant'` -/
inductive ChatRole where
  | user
  | assistant
deriving DecidableEq, Repr

/-- `interface ChatMessage` of `Chat.tsx`. -/
structure ChatMessage where
  id : String
  role : ChatRole
  content : String
  images : Option (List String)
deriving DecidableEq, Repr

/-- `interface ChatThread` of `Chat.tsx`. -/
structure ChatThread where
  id : String
  title : String
  messages : List ChatMessage
  createdAt : Nat
  updatedAt : Nat
deriving DecidableEq, Repr

/-- Serialization of a role, as object-field value. -/
def ChatRole.toStr : ChatRole → String
  | .user => "user"
  | .assistant => "assistant"

/-- The JSON object `JSON.stringify` sees for a message (fields in the
object-literal order of `Chat.tsx`; `images` is omitted when absent,
matching serialization of an absent optional property). -/
def encodeMessage (m : ChatMessage) : Json :=
  Json.obj ([("id", Json.str m.id), ("role", Json.str m.role.toStr),
             ("content", Json.str m.content)] ++
    (match m.images with
     | none => []
     | some imgs => [("images", Json.arr (imgs.map Json.str))]))

/-- The JSON object `JSON.stringify` sees for a thread. -/
def encodeThread (t : ChatThread) : Json :=
  Json.obj [("id", Json.str t.id), ("title", Json.str t.title),
            ("messages", Json.arr (t.messages.map encodeMessage)),
            ("createdAt", Json.num t.createdAt), ("updatedAt", Json.num t.updatedAt)]

/-- The JSON array `JSON.stringify` sees for a thread collection. -/
def encodeThreads (ts : List ChatThread) : Json :=
  Json.arr (ts.map encodeThread)

/-- JavaScript property read on a parsed JSON object. -/
def jGet (fs : List (String × Json)) (k : String) : Option Json :=
  match fs.find? (fun kv => kv.1 == k) with
  | some kv => some kv.2
  | none => none

/-- Read a JSON value as a string (the `as ChatThread[]` cast performs no
check; a missing or non-string field would surface as `undefined`, which we
collapse to `""` — no theorem below depends on that junk case). -/
def jStr : Option Json → String
  | some (Json.str s) => s
  | _ => ""

/-- Read a JSON value as a number, same caveat as `jStr`. -/
def jNum : Option Json → Nat
  | some (Json.num n) => n
  | _ => 0

/-- Read a role back from its serialized form. -/
def ChatRole.ofStr (s : String) : ChatRole :=
  if s = "assistant" then .assistant else .user

/-- Model of reading a parsed JSON value as a `ChatMessage` (the code casts
without validation; on values produced by `encodeMessage` this is exact). -/
def decodeMessage (j : Json) : ChatMessage :=
  match j with
  | Json.obj fs =>
      { id := jStr (jGet fs "id"), role := ChatRole.ofStr (jStr (jGet fs "role")),
        content := jStr (jGet fs "content"),
        images := match jGet fs "images" with
          | some (Json.arr l) => some (l.map (fun x => jStr (some x)))
          | _ => none }
  | _ => { id := "", role := .user, content := "", images := none }

/-- Model of reading a parsed JSON value as a `ChatThread`. -/
def decodeThread (j : Json) : ChatThread :=
  match j with
  | Json.obj fs =>
      { id := jStr (jGet fs "id"), title := jStr (jGet fs "title"),
        messages := (match jGet fs "messages" with
          | some (Json.arr l) => l.map decodeMessage
          | _ => []),
        createdAt := jNum (jGet fs "createdAt"), updatedAt := jNum (jGet fs "updatedAt") }
  | _ => { id := "", title := "", messages := [], createdAt := 0, updatedAt := 0 }

/-- A JavaScript string held in `localStorage`, abstracted by its
`JSON.parse` outcome: either the `JSON.stringify` image of a value, or a
string on which `JSON.parse` throws. -/
inductive JsText where
  | ofJson (j : Json)
  | notJson (s : String)
deriving Repr

/-- The character content of a stored string. -/
def JsText.asString : JsText → String
  | .ofJson j => Json.stringify j
  | .notJson s => s

/-- The browser `localStorage`, restricted to the two fixed keys the chat
page uses, plus an abstract per-write quota modelling `QuotaExceededError`
(`none`: writes always succeed). -/
structure LocalStorage where
  chatThreadsV1 : Option JsText
  currentThreadIdV1 : Option String
  quota : Option Nat
deriving Repr

/-- `localStorage.setItem('chatThreadsV1', JSON.stringify j)`: fails (throws
in the source, `none` here) when the written string exceeds the quota. -/
def setChatThreads (st : LocalStorage) (j : Json) : Option LocalStorage :=
  match st.quota with
  | none => some { st with chatThreadsV1 := some (JsText.ofJson j) }
  | some q =>
      if (Json.stringify j).length ≤ q then
        some { st with chatThreadsV1 := some (JsText.ofJson j) }
      else none

/-- Length of the string currently stored under `'chatThreadsV1'`. -/
def storedLength (st : LocalStorage) : Nat :=
  match st.chatThreadsV1 with
  | some v => v.asString.length
  | none => 0

namespace ChatStorage

/-- `MAX_STORAGE_SIZE = 5 * 1024 * 1024` (5MB limit). -/
def MAX_STORAGE_SIZE : Nat := 5 * 1024 * 1024

/-- `MAX_THREADS = 20`. -/
def MAX_THREADS : Nat := 20

/-- `MAX_MESSAGES_PER_THREAD = 50`. -/
def MAX_MESSAGES_PER_THREAD : Nat := 50

/-- The comparator `(a, b) => b.updatedAt - a.updatedAt` of `trimThreads`:
`a` may stay before `b` exactly when this is `≤ 0`.  JavaScript `sort` is
stable, so it is modelled by the stable `List.mergeSort` with this `le`. -/
def threadLe (a b : ChatThread) : Bool :=
  decide (b.updatedAt ≤ a.updatedAt)

/-- `ChatStorage.trimThreads`: sort by `updatedAt` descending, keep only
`MAX_THREADS`. -/
def trimThreads (threads : List ChatThread) : List ChatThread :=
  (threads.mergeSort threadLe).take MAX_THREADS

/-- `ChatStorage.trimMessages`: keep the first message and the latest
`MAX_MESSAGES_PER_THREAD - 1` messages. -/
def trimMessages (thread : ChatThread) : ChatThread :=
  if thread.messages.length ≤ MAX_MESSAGES_PER_THREAD then thread
  else
    { thread with
        messages := thread.messages.take 1 ++
          thread.messages.drop (thread.messages.length - (MAX_MESSAGES_PER_THREAD - 1)) }

/-- `ChatStorage.optimizeImages`, with the canvas-based `compressImage`
abstracted by `compress` (it never rejects, so the `catch` arm is dead). -/
def optimizeImages (compress : String → String) (images : List String) : List String :=
  images.map fun image =>
    if image.startsWith "data:image/" then compress image else image

/-- The image-optimization loop of `saveThreads`, applied to one thread:
`if (message.images && message.images.length > 0) message.images = await
this.optimizeImages(message.images)`. -/
def optimizeThreadImages (compress : String → String) (t : ChatThread) : ChatThread :=
  { t with
      messages := t.messages.map fun m =>
        match m.images with
        | some imgs =>
            if imgs.length > 0 then { m with images := some (optimizeImages compress imgs) }
            else m
        | none => m }

/-- The "more aggressive trimming" of `saveThreads`: keep only 10 threads
and the last 20 messages of each (`slice(0, 10)` / `slice(-20)`). -/
def aggressiveTrim (threads : List ChatThread) : List ChatThread :=
  (threads.take 10).map fun t =>
    { t with messages := t.messages.drop (t.messages.length - 20) }

/-- The thread list `saveThreads` actually serializes and writes: trim,
optimize images, and if the first serialization exceeds
`MAX_STORAGE_SIZE`, re-trim aggressively (without re-checking the size). -/
def savePayload (compress : String → String) (threads : List ChatThread) : List ChatThread :=
  let optimizedThreads :=
    ((trimThreads threads).map trimMessages).map (optimizeThreadImages compress)
  if (Json.stringify (encodeThreads optimizedThreads)).length > MAX_STORAGE_SIZE then
    aggressiveTrim optimizedThreads
  else optimizedThreads

/-- `ChatStorage.saveThreads`.  The happy path writes the payload and
returns `true`.  On a write failure it looks up the current thread id and
tries to persist just that thread (trimmed); if that inner write also
fails, it removes the key; the failure branch returns `false` unless the
emergency write succeeded. -/
def saveThreads (compress : String → String) (st : LocalStorage)
    (threads : List ChatThread) : Bool × LocalStorage :=
  match setChatThreads st (encodeThreads (savePayload compress threads)) with
  | some st' => (true, st')
  | none =>
    match st.currentThreadIdV1.bind (fun cid => threads.find? (fun t => t.id == cid)) with
    | some currentThread =>
      match setChatThreads st (encodeThreads [trimMessages currentThread]) with
      | some st' => (true, st')
      | none => (false, { st with chatThreadsV1 := none })
    | none => (false, st)

/-- Source of the freshly generated ids and `Date.now()` timestamps used
when `loadThreads` (or `deleteThread`) seeds a default thread. -/
structure Fresh where
  threadId : String
  messageId : String
  now : Nat
deriving Repr

/-- The seeded default thread (`initial` in `loadThreads`, `fresh` in
`deleteThread`): title `'New chat'`, a single assistant greeting. -/
def initialThread (env : Fresh) : ChatThread :=
  { id := env.threadId, title := "New chat",
    messages := [{ id := env.messageId, role := .assistant,
                   content := "Hi! I'm your AI assistant. Ask me anything to get started.",
                   images := none }],
    createdAt := env.now, updatedAt := env.now }

/-- `ChatStorage.loadThreads`: returns the parsed array when the key holds
a nonempty JSON array; clears the key when `JSON.parse` throws; in every
fall-through case returns a single seeded default thread.  (JavaScript
`if (saved)` is false for the empty string, hence the first test.) -/
def loadThreads (env : Fresh) (st : LocalStorage) : List ChatThread × LocalStorage :=
  match st.chatThreadsV1 with
  | none => ([initialThread env], st)
  | some saved =>
    if saved.asString = "" then ([initialThread env], st)
    else
      match saved with
      | JsText.ofJson (Json.arr parsed) =>
          if parsed.length > 0 then (parsed.map decodeThread, st)
          else ([initialThread env], st)
      | JsText.ofJson _ => ([initialThread env], st)
      | JsText.notJson _ => ([initialThread env], { st with chatThreadsV1 := none })

/-- `ChatStorage.importChats`: `JSON.parse` the text, return the array if
the result is an array (any array — element shape is not checked),
otherwise `null`. -/
def importChats (jsonString : JsText) : Option (List ChatThread) :=
  match jsonString with
  | JsText.ofJson (Json.arr parsed) => some (parsed.map decodeThread)
  | _ => none

end ChatStorage

/-- The chat page's in-memory state relevant to thread management: the
`threads` and `currentThreadId` `useState` values. -/
structure ChatState where
  threads : List ChatThread
  currentThreadId : String
deriving DecidableEq, Repr

/-- The memoized `currentThread`:
`threads.find(t => t.id === (currentThreadId || threads[0]?.id)) ?? threads[0]`. -/
def currentThread (st : ChatState) : Option ChatThread :=
  match (if st.currentThreadId = "" then st.threads.head?.map (fun t => t.id)
         else some st.currentThreadId) with
  | some cid =>
    match st.threads.find? (fun t => t.id == cid) with
    | some t => some t
    | none => st.threads.head?
  | none => st.threads.head?

/-- The component's `deleteThread(threadId)` (state part).  `ok` is the
`window.confirm` answer.  If the deleted thread was current: select the
first remaining thread, or seed a fresh default thread when none remain. -/
def deleteThread (env : ChatStorage.Fresh) (ok : Bool) (st : ChatState)
    (threadId : String) : ChatState :=
  if !ok then st
  else
    let next := st.threads.filter fun t => !(t.id == threadId)
    if (currentThread st).map (fun t => t.id) = some threadId then
      match next with
      | t0 :: _ => { threads := next, currentThreadId := t0.id }
      | [] =>
        let fresh := ChatStorage.initialThread env
        { threads := [fresh], currentThreadId := fresh.id }
    else { st with threads := next }

/-- The component's `importChats` handler (state part): parse the file
content with `ChatStorage.importChats`; `null` shows an alert and changes
nothing; otherwise, after the user confirms, replace the whole collection
and, only when it is nonempty, make its first thread current. -/
def importChatsHandler (confirmed : Bool) (st : ChatState) (content : JsText) : ChatState :=
  match ChatStorage.importChats content with
  | some imported =>
    if confirmed then
      match imported with
      | t0 :: _ => { threads := imported, currentThreadId := t0.id }
      | [] => { st with threads := [] }
    else st
  | none => st

/-! ### Concrete stores, threads and messages used by the claim theorems -/

/-- A storage state with no content and no quota limit. -/
def noQuotaStore : LocalStorage :=
  { chatThreadsV1 := none, currentThreadIdV1 := none, quota := none }

/-- A fixed source of fresh ids/timestamps for seeded default threads. -/
def sampleFresh : ChatStorage.Fresh :=
  { threadId := "fresh-thread", messageId := "fresh-message", now := 7 }

/-- A text body one character longer than the whole byte budget. -/
def bigContent : String :=
  String.mk (List.replicate (ChatStorage.MAX_STORAGE_SIZE + 1) 'a')

/-- A message whose content alone exceeds the byte budget. -/
def bigMsg : ChatMessage :=
  { id := "m-big", role := .user, content := bigContent, images := none }

/-- A single-message thread whose serialization exceeds the byte budget. -/
def bigThread : ChatThread :=
  { id := "t-big", title := "big", messages := [bigMsg], createdAt := 0, updatedAt := 0 }

/-- Small numbered filler messages. -/
def midMsg (i : Nat) : ChatMessage :=
  { id := Nat.repr i, role := .user, content := "x", images := none }

/-- A thread with 21 messages (so over the aggressive 20-message cap) whose
last message makes the serialization exceed the byte budget. -/
def manyMsgThread : ChatThread :=
  { id := "t-many", title := "many",
    messages := midMsg 0 :: ((List.range 19).map (fun i => midMsg (i + 1)) ++ [bigMsg]),
    createdAt := 0, updatedAt := 0 }

/-- What the aggressive trim leaves of `manyMsgThread`: the last 20
messages — the original first message is gone. -/
def manyMsgTrimmed : ChatThread :=
  { manyMsgThread with
      messages := (List.range 19).map (fun i => midMsg (i + 1)) ++ [bigMsg] }

/-- A tiny thread, last updated at time 1. -/
def threadA : ChatThread :=
  { id := "a", title := "A", messages := [], createdAt := 0, updatedAt := 1 }

/-- A tiny thread, last updated at time 2. -/
def threadB : ChatThread :=
  { id := "b", title := "B", messages := [], createdAt := 0, updatedAt := 2 }

/-- A storage state whose key holds the literal text `"[]"`. -/
def emptyArrStore : LocalStorage :=
  { chatThreadsV1 := some (JsText.ofJson (Json.arr [])), currentThreadIdV1 := none, quota := none }

/-- A storage state on which every write fails (quota 0), with no stored
current-thread id and the key still holding `"[]"`. -/
def zeroQuotaStore : LocalStorage :=
  { chatThreadsV1 := some (JsText.ofJson (Json.arr [])), currentThreadIdV1 := none,
    quota := some 0 }

/-- Small numbered messages for the trimming witnesses. -/
def wMsg (i : Nat) : ChatMessage :=
  { id := Nat.repr i, role := .user, content := "m", images := none }

/-- A thread with 2 messages (under the per-thread ceiling). -/
def smallThread : ChatThread :=
  { id := "s", title := "S", messages := [wMsg 0, wMsg 1], createdAt := 0, updatedAt := 0 }

/-- A thread with 51 messages (over the per-thread ceiling). -/
def longThread : ChatThread :=
  { id := "l", title := "L", messages := (List.range 51).map wMsg, createdAt := 0, updatedAt := 0 }

/-- 25 tiny threads with pairwise distinct `updatedAt`, already in
descending `updatedAt` order. -/
def w8 (i : Nat) : ChatThread :=
  { id := Nat.repr i, title := "", messages := [], createdAt := 0, updatedAt := 25 - i }

/-- The 25-thread collection of the eviction-ordering witness. -/
def w8Threads : List ChatThread := (List.range 25).map w8

/-- A one-thread chat state whose single thread is current. -/
def delState1 : ChatState := { threads := [threadA], currentThreadId := "a" }

/-- A two-thread chat state whose first thread is current. -/
def delState2 : ChatState := { threads := [threadA, threadB], currentThreadId := "a" }

/-! ### Round-trip of the encoding: reading back what was serialized -/

theorem map_jStr_str (l : List String) :
    (l.map Json.str).map (fun x => jStr (some x)) = l := by
  induction l with
  | nil => rfl
  | cons a l ih =>
    simp only [List.map_cons, ih]
    rfl

theorem decodeMessage_encodeMessage (m : ChatMessage) :
    decodeMessage (encodeMessage m) = m := by
  cases m with
  | mk id role content images =>
    cases images with
    | none =>
      cases role <;> rfl
    | some imgs =>
      cases role
      · have h : decodeMessage (encodeMessage ⟨id, .user, content, some imgs⟩) =
            ⟨id, .user, content, some ((imgs.map Json.str).map (fun x => jStr (some x)))⟩ := rfl
        rw [h, map_jStr_str]
      · have h : decodeMessage (encodeMessage ⟨id, .assistant, content, some imgs⟩) =
            ⟨id, .assistant, content, some ((imgs.map Json.str).map (fun x => jStr (some x)))⟩ := rfl
        rw [h, map_jStr_str]

theorem map_decodeMessage_map_encodeMessage (l : List ChatMessage) :
    (l.map encodeMessage).map decodeMessage = l := by
  rw [List.map_map]
  conv_rhs => rw [← List.map_id l]
  exact List.map_congr_left fun a _ => decodeMessage_encodeMessage a

theorem decodeThread_encodeThread (t : ChatThread) :
    decodeThread (encodeThread t) = t := by
  cases t with
  | mk id title messages createdAt updatedAt =>
    have h : decodeThread (encodeThread ⟨id, title, messages, createdAt, updatedAt⟩) =
        ⟨id, title, (messages.map encodeMessage).map decodeMessage, createdAt, updatedAt⟩ := rfl
    rw [h, map_decodeMessage_map_encodeMessage]

theorem map_decodeThread_map_encodeThread (ts : List ChatThread) :
    (ts.map encodeThread).map decodeThread = ts := by
  rw [List.map_map]
  conv_rhs => rw [← List.map_id ts]
  exact List.map_congr_left fun a _ => decodeThread_encodeThread a

/-! ### Length facts about `Json.stringify` -/

theorem one_le_length_escapeChar (c : Char) : 1 ≤ (escapeChar c).length := by
  unfold escapeChar
  repeat' split
  · decide
  · decide
  · decide
  · decide
  · decide
  · decide
  · decide
  · rw [String.length_append]
    have h1 : ("\\u00" : String).length = 4 := rfl
    omega
  · have h1 : (String.singleton c).length = 1 := rfl
    omega

theorem length_le_length_escapeList (cs : List Char) :
    cs.length ≤ (escapeList cs).length := by
  induction cs with
  | nil => simp [escapeList]
  | cons c cs ih =>
    have h := one_le_length_escapeChar c
    simp only [escapeList, String.length_append, List.length_cons]
    omega

theorem length_le_length_stringify_str (s : String) :
    s.length ≤ (Json.stringify (Json.str s)).length := by
  have h := length_le_length_escapeList s.data
  simp only [Json.stringify, String.length_append, escapeString]
  have hs : s.length = s.data.length := rfl
  omega

theorem le_length_stringifyArr {j : Json} : ∀ {l : List Json}, j ∈ l →
    (Json.stringify j).length ≤ (stringifyArr l).length := by
  intro l
  induction l with
  | nil => intro h; cases h
  | cons a rest ih =>
    intro h
    cases rest with
    | nil =>
      rcases List.mem_singleton.mp h with rfl
      simp [stringifyArr]
    | cons b bs =>
      rcases List.mem_cons.mp h with rfl | hmem
      · simp only [stringifyArr, String.length_append]
        omega
      · have := ih hmem
        simp only [stringifyArr, String.length_append]
        omega

theorem le_length_stringifyObj {k : String} {v : Json} :
    ∀ {fs : List (String × Json)}, (k, v) ∈ fs →
    (Json.stringify v).length ≤ (stringifyObj fs).length := by
  intro fs
  induction fs with
  | nil => intro h; cases h
  | cons a rest ih =>
    intro h
    cases rest with
    | nil =>
      rcases List.mem_singleton.mp h with rfl
      simp only [stringifyObj, String.length_append]
      omega
    | cons b bs =>
      rcases List.mem_cons.mp h with rfl | hmem
      · simp only [stringifyObj, String.length_append]
        omega
      · have := ih hmem
        simp only [stringifyObj, String.length_append]
        omega

theorem stringifyArr_le_length_arr (l : List Json) :
    (stringifyArr l).length ≤ (Json.stringify (Json.arr l)).length := by
  simp only [Json.stringify, String.length_append]
  omega

theorem stringifyObj_le_length_obj (fs : List (String × Json)) :
    (stringifyObj fs).length ≤ (Json.stringify (Json.obj fs)).length := by
  simp only [Json.stringify, String.length_append]
  omega

/-- Any message's text content is no longer than the serialized form of any
thread collection containing it: a lower bound on `JSON.stringify` output. -/
theorem content_length_le_stringify_encodeThreads {ts : List ChatThread}
    {t : ChatThread} {m : ChatMessage} (ht : t ∈ ts) (hm : m ∈ t.messages) :
    m.content.length ≤ (Json.stringify (encodeThreads ts)).length := by
  have h1 : m.content.length ≤ (Json.stringify (Json.str m.content)).length :=
    length_le_length_stringify_str m.content
  have hcontent : ("content", Json.str m.content) ∈
      ([("id", Json.str m.id), ("role", Json.str m.role.toStr),
        ("content", Json.str m.content)] ++
        (match m.images with
         | none => []
         | some imgs => [("images", Json.arr (imgs.map Json.str))])) := by
    apply List.mem_append_left
    simp
  have h2 := le_length_stringifyObj hcontent
  have h3 := stringifyObj_le_length_obj
    ([("id", Json.str m.id), ("role", Json.str m.role.toStr),
      ("content", Json.str m.content)] ++
      (match m.images with
       | none => []
       | some imgs => [("images", Json.arr (imgs.map Json.str))]))
  have h4 : (Json.stringify (encodeMessage m)).length ≤
      (stringifyArr (t.messages.map encodeMessage)).length :=
    le_length_stringifyArr (List.mem_map_of_mem encodeMessage hm)
  have h5 := stringifyArr_le_length_arr (t.messages.map encodeMessage)
  have hmsgs : ("messages", Json.arr (t.messages.map encodeMessage)) ∈
      [("id", Json.str t.id), ("title", Json.str t.title),
       ("messages", Json.arr (t.messages.map encodeMessage)),
       ("createdAt", Json.num t.createdAt), ("updatedAt", Json.num t.updatedAt)] := by
    simp
  have h6 := le_length_stringifyObj hmsgs
  have h7 := stringifyObj_le_length_obj
    [("id", Json.str t.id), ("title", Json.str t.title),
     ("messages", Json.arr (t.messages.map encodeMessage)),
     ("createdAt", Json.num t.createdAt), ("updatedAt", Json.num t.updatedAt)]
  have h8 : (Json.stringify (encodeThread t)).length ≤
      (stringifyArr (ts.map encodeThread)).length :=
    le_length_stringifyArr (List.mem_map_of_mem encodeThread ht)
  have h9 := stringifyArr_le_length_arr (ts.map encodeThread)
  simp only [encodeMessage] at h2 h3 h4
  simp only [encodeThread] at h6 h7 h8
  simp only [encodeThreads]
  omega

/-- The serialization of a JSON array is never the empty string (it starts
with a bracket), so JavaScript `if (saved)` takes the truthy branch. -/
theorem stringify_arr_ne_empty (l : List Json) : Json.stringify (Json.arr l) ≠ "" := by
  intro h
  have : (Json.stringify (Json.arr l)).length = 0 := by rw [h]; rfl
  simp only [Json.stringify, String.length_append] at this
  have h1 : ("[" : String).length = 1 := rfl
  omega

/-! ### Facts about the trimming functions -/

namespace ChatStorage

theorem trimMessages_of_le {t : ChatThread}
    (h : t.messages.length ≤ MAX_MESSAGES_PER_THREAD) : trimMessages t = t := by
  simp [trimMessages, h]

theorem trimMessages_messages_of_gt {t : ChatThread}
    (h : MAX_MESSAGES_PER_THREAD < t.messages.length) :
    (trimMessages t).messages =
      t.messages.take 1 ++
        t.messages.drop (t.messages.length - (MAX_MESSAGES_PER_THREAD - 1)) := by
  simp [trimMessages, Nat.not_le.mpr h]

theorem trimMessages_length_of_gt {t : ChatThread}
    (h : MAX_MESSAGES_PER_THREAD < t.messages.length) :
    (trimMessages t).messages.length = MAX_MESSAGES_PER_THREAD := by
  rw [trimMessages_messages_of_gt h]
  rw [List.length_append, List.length_take, List.length_drop]
  simp only [MAX_MESSAGES_PER_THREAD] at h ⊢
  omega

theorem trimMessages_head? (t : ChatThread) :
    (trimMessages t).messages.head? = t.messages.head? := by
  by_cases h : t.messages.length ≤ MAX_MESSAGES_PER_THREAD
  · rw [trimMessages_of_le h]
  · rw [trimMessages_messages_of_gt (Nat.not_le.mp h)]
    cases hm : t.messages with
    | nil => rw [hm] at h; exact absurd h (by simp)
    | cons a l => simp

theorem trimMessages_idem (t : ChatThread) :
    trimMessages (trimMessages t) = trimMessages t := by
  by_cases h : t.messages.length ≤ MAX_MESSAGES_PER_THREAD
  · rw [trimMessages_of_le h, trimMessages_of_le h]
  · exact trimMessages_of_le (by rw [trimMessages_length_of_gt (Nat.not_le.mp h)])

theorem threadLe_trans (a b c : ChatThread) :
    threadLe a b = true → threadLe b c = true → threadLe a c = true := by
  simp only [threadLe, decide_eq_true_eq]
  omega

theorem threadLe_total (a b : ChatThread) : (threadLe a b || threadLe b a) = true := by
  simp only [threadLe, Bool.or_eq_true, decide_eq_true_eq]
  omega

theorem trimThreads_sorted (threads : List ChatThread) :
    (trimThreads threads).Pairwise (fun a b => b.updatedAt ≤ a.updatedAt) := by
  have h := List.sorted_mergeSort threadLe_trans threadLe_total threads
  have h' := List.Pairwise.sublist (List.take_sublist MAX_THREADS (threads.mergeSort threadLe)) h
  unfold trimThreads
  exact h'.imp fun hab => by simpa [threadLe] using hab

theorem trimThreads_eq_self {threads : List ChatThread}
    (hs : threads.Pairwise (fun a b => b.updatedAt ≤ a.updatedAt))
    (hl : threads.length ≤ MAX_THREADS) : trimThreads threads = threads := by
  unfold trimThreads
  rw [List.mergeSort_of_sorted (hs.imp fun hab => by simpa [threadLe] using hab)]
  exact List.take_of_length_le hl

theorem trimThreads_length_le (threads : List ChatThread) :
    (trimThreads threads).length ≤ MAX_THREADS := by
  unfold trimThreads
  rw [List.length_take]
  exact min_le_left _ _

theorem trimThreads_idem (threads : List ChatThread) :
    trimThreads (trimThreads threads) = trimThreads threads :=
  trimThreads_eq_self (trimThreads_sorted threads) (trimThreads_length_le threads)

theorem trimThreads_subset (threads : List ChatThread) :
    trimThreads threads ⊆ threads := fun t ht => by
  have h1 := List.take_subset MAX_THREADS (threads.mergeSort threadLe) ht
  exact ((threads.mergeSort_perm threadLe).mem_iff).mp h1

theorem optimizeThreadImages_eq_self {compress : String → String} {t : ChatThread}
    (h : ∀ m ∈ t.messages, m.images = none) : optimizeThreadImages compress t = t := by
  unfold optimizeThreadImages
  have : t.messages.map (fun m =>
      match m.images with
      | some imgs =>
          if imgs.length > 0 then { m with images := some (optimizeImages compress imgs) }
          else m
      | none => m) = t.messages := by
    conv_rhs => rw [← List.map_id t.messages]
    refine List.map_congr_left fun m hm => ?_
    rw [h m hm]
    rfl
  rw [this]

/-- On the within-budget path the payload is exactly the trimmed, optimized
collection (the aggressive trim is not applied). -/
theorem savePayload_of_le {compress : String → String} {threads : List ChatThread}
    (hb : (Json.stringify (encodeThreads
        (((trimThreads threads).map trimMessages).map (optimizeThreadImages compress)))).length
      ≤ MAX_STORAGE_SIZE) :
    savePayload compress threads =
      ((trimThreads threads).map trimMessages).map (optimizeThreadImages compress) := by
  simp only [savePayload]
  rw [if_neg (Nat.not_lt.mpr hb)]

/-- With no quota limit, `saveThreads` takes the happy path and stores the
serialized payload. -/
theorem saveThreads_of_no_quota {compress : String → String} {st : LocalStorage}
    (threads : List ChatThread) (hq : st.quota = none) :
    saveThreads compress st threads =
      (true, { st with
                chatThreadsV1 :=
                  some (JsText.ofJson (encodeThreads (savePayload compress threads))) }) := by
  unfold saveThreads setChatThreads
  rw [hq]

end ChatStorage

namespace ChatStorage

/-- Every message surviving `trimMessages` was a message of the original
thread. -/
theorem trimMessages_messages_subset {t : ChatThread} {m : ChatMessage}
    (hm : m ∈ (trimMessages t).messages) : m ∈ t.messages := by
  by_cases h : t.messages.length ≤ MAX_MESSAGES_PER_THREAD
  · rwa [trimMessages_of_le h] at hm
  · rw [trimMessages_messages_of_gt (Nat.not_le.mp h)] at hm
    rcases List.mem_append.mp hm with h1 | h2
    · exact List.take_subset _ _ h1
    · exact List.drop_subset _ _ h2

end ChatStorage

/-- An element yielded by `head?` is a member of the list. -/
theorem mem_of_head?_eq_some {α : Type _} {l : List α} {a : α}
    (h : l.head? = some a) : a ∈ l := by
  cases l with
  | nil => simp at h
  | cons x xs =>
    simp only [List.head?_cons, Option.some.injEq] at h
    subst h
    exact List.mem_cons_self _ _

/-- The memoized `currentThread` is always one of the threads (when it is
not `undefined`). -/
theorem currentThread_mem {st : ChatState} {c : ChatThread}
    (h : currentThread st = some c) : c ∈ st.threads := by
  unfold currentThread at h
  split at h
  · split at h
    · simp only [Option.some.injEq] at h
      subst h
      next hf => exact List.mem_of_find?_eq_some hf
    · exact mem_of_head?_eq_some h
  · exact mem_of_head?_eq_some h

/-- When the store holds exactly one thread, `currentThread` is that thread
(either the id matches, or the `?? threads[0]` fallback applies). -/
theorem currentThread_singleton {st : ChatState} {t : ChatThread}
    (hst : st.threads = [t]) : currentThread st = some t := by
  unfold currentThread
  rw [hst]
  by_cases hc : st.currentThreadId = ""
  · simp [hc]
  · rw [if_neg hc]
    cases he : (t.id == st.currentThreadId) <;> simp [List.find?_cons, he]

/-- Unfolding a successful `setItem`. -/
theorem setChatThreads_eq_some {st st' : LocalStorage} {j : Json}
    (h : setChatThreads st j = some st') :
    st' = { st with chatThreadsV1 := some (JsText.ofJson j) } := by
  unfold setChatThreads at h
  split at h
  · simp only [Option.some.injEq] at h
    exact h.symm
  · split at h
    · simp only [Option.some.injEq] at h
      exact h.symm
    · cases h

/-! ### Claim theorems -/

/-- C6: `trimMessages` returns the thread unchanged when it has at most
`MAX_MESSAGES_PER_THREAD` (50) messages; otherwise its messages become the
first message followed by the last `MAX_MESSAGES_PER_THREAD - 1` messages,
so `messages[0]` is preserved and exactly `MAX_MESSAGES_PER_THREAD`
messages remain. -/
theorem c6_trimMessages_spec (t : ChatThread) :
    (t.messages.length ≤ ChatStorage.MAX_MESSAGES_PER_THREAD →
        ChatStorage.trimMessages t = t) ∧
    (ChatStorage.MAX_MESSAGES_PER_THREAD < t.messages.length →
        (ChatStorage.trimMessages t).messages =
            t.messages.take 1 ++
              t.messages.drop
                (t.messages.length - (ChatStorage.MAX_MESSAGES_PER_THREAD - 1)) ∧
        (ChatStorage.trimMessages t).messages.head? = t.messages.head? ∧
        (ChatStorage.trimMessages t).messages.length = ChatStorage.MAX_MESSAGES_PER_THREAD) :=
  ⟨fun h => ChatStorage.trimMessages_of_le h,
   fun h => ⟨ChatStorage.trimMessages_messages_of_gt h, ChatStorage.trimMessages_head? t,
     ChatStorage.trimMessages_length_of_gt h⟩⟩

/-- Witness for C6 at a thread of 2 messages and a thread of 51 messages. -/
theorem c6_trimMessages_spec_witness :
    ChatStorage.trimMessages smallThread = smallThread ∧
    ((ChatStorage.trimMessages longThread).messages =
        longThread.messages.take 1 ++
          longThread.messages.drop
            (longThread.messages.length - (ChatStorage.MAX_MESSAGES_PER_THREAD - 1)) ∧
      (ChatStorage.trimMessages longThread).messages.head? = longThread.messages.head? ∧
      (ChatStorage.trimMessages longThread).messages.length =
        ChatStorage.MAX_MESSAGES_PER_THREAD) :=
  ⟨(c6_trimMessages_spec smallThread).1 (by decide),
   (c6_trimMessages_spec longThread).2 (by decide)⟩

/-- C7: both trimming functions are idempotent. -/
theorem c7_trim_idempotent :
    (∀ threads : List ChatThread,
        ChatStorage.trimThreads (ChatStorage.trimThreads threads) =
          ChatStorage.trimThreads threads) ∧
    (∀ t : ChatThread,
        ChatStorage.trimMessages (ChatStorage.trimMessages t) =
          ChatStorage.trimMessages t) :=
  ⟨ChatStorage.trimThreads_idem, ChatStorage.trimMessages_idem⟩

/-- C10: `importChats` on the text `"[]"` returns the empty collection (not
the invalid-input marker `null`), and the import handler then replaces the
in-memory store with zero threads. -/
theorem c10_import_empty_array (st : ChatState) :
    ChatStorage.importChats (JsText.ofJson (Json.arr [])) = some [] ∧
    importChatsHandler true st (JsText.ofJson (Json.arr [])) = { st with threads := [] } ∧
    (importChatsHandler true st (JsText.ofJson (Json.arr []))).threads = [] :=
  ⟨rfl, rfl, rfl⟩

/-- C9: `deleteThread` never leaves the store empty — deleting the only
thread seeds a fresh default thread (title `'New chat'`, greeting message)
and makes it current; deleting the current thread while others remain makes
the first remaining thread current; deleting an id not in the store changes
nothing. -/
theorem c9_deleteThread (env : ChatStorage.Fresh) (st : ChatState) :
    (∀ t, st.threads = [t] →
        deleteThread env true st t.id =
          { threads := [ChatStorage.initialThread env],
            currentThreadId := (ChatStorage.initialThread env).id }) ∧
    (∀ tid t0 rest, (currentThread st).map (fun x => x.id) = some tid →
        st.threads.filter (fun x => !(x.id == tid)) = t0 :: rest →
        deleteThread env true st tid = { threads := t0 :: rest, currentThreadId := t0.id }) ∧
    (∀ tid, (∀ u ∈ st.threads, u.id ≠ tid) → deleteThread env true st tid = st) ∧
    (ChatStorage.initialThread env).title = "New chat" ∧
    (ChatStorage.initialThread env).messages =
      [{ id := env.messageId, role := .assistant,
         content := "Hi! I'm your AI assistant. Ask me anything to get started.",
         images := none }] := by
  refine ⟨?_, ?_, ?_, rfl, rfl⟩
  · intro t hst
    have hcur : currentThread st = some t := currentThread_singleton hst
    unfold deleteThread
    rw [hst]
    simp only [Bool.not_true, Bool.false_eq_true, if_false, hcur, Option.map_some',
      List.filter_cons, beq_self_eq_true, Bool.not_true, List.filter_nil, if_pos rfl,
      Option.some.injEq, if_true]
  · intro tid t0 rest hcur hfil
    unfold deleteThread
    rw [hfil, if_pos hcur]
    rfl
  · intro tid hno
    have hfil : st.threads.filter (fun x => !(x.id == tid)) = st.threads :=
      List.filter_eq_self.mpr fun a ha => by
        simp only [Bool.not_eq_true', beq_eq_false_iff_ne, ne_eq]
        exact hno a ha
    have hcur : ¬ ((currentThread st).map (fun x => x.id) = some tid) := by
      intro heq
      cases hc : currentThread st with
      | none => rw [hc] at heq; simp at heq
      | some c =>
        rw [hc] at heq
        simp only [Option.map_some', Option.some.injEq] at heq
        exact hno c (currentThread_mem hc) heq
    unfold deleteThread
    rw [hfil, if_neg hcur]
    rfl

/-- Witness for C9 at concrete one-thread and two-thread states. -/
theorem c9_deleteThread_witness :
    deleteThread sampleFresh true delState1 threadA.id =
      { threads := [ChatStorage.initialThread sampleFresh],
        currentThreadId := (ChatStorage.initialThread sampleFresh).id } ∧
    deleteThread sampleFresh true delState2 "a" =
      { threads := [threadB], currentThreadId := threadB.id } ∧
    deleteThread sampleFresh true delState2 "zzz" = delState2 :=
  ⟨(c9_deleteThread sampleFresh delState1).1 threadA rfl,
   (c9_deleteThread sampleFresh delState2).2.1 "a" threadB [] (by decide) (by decide),
   (c9_deleteThread sampleFresh delState2).2.2.1 "zzz" (by decide)⟩

/-- C4 (amended): `loadThreads` returns a single freshly seeded default
thread (title `'New chat'`, one assistant greeting, freshly generated id)
when the key is absent, holds unparseable text, or holds JSON that is not a
nonempty array; but it clears the key **only** in the unparseable case —
when the key holds a non-array or empty-array JSON value (or the empty
string) the key is left untouched.  A nonempty parsed array is returned
unmodified with no trimming. -/
theorem c4_loadThreads_amended (env : ChatStorage.Fresh) (st : LocalStorage) :
    (st.chatThreadsV1 = none →
        ChatStorage.loadThreads env st = ([ChatStorage.initialThread env], st)) ∧
    (∀ s, st.chatThreadsV1 = some (JsText.notJson s) → s ≠ "" →
        ChatStorage.loadThreads env st =
          ([ChatStorage.initialThread env], { st with chatThreadsV1 := none })) ∧
    (∀ j, st.chatThreadsV1 = some (JsText.ofJson j) → (∀ l, j ≠ Json.arr l) →
        ChatStorage.loadThreads env st = ([ChatStorage.initialThread env], st)) ∧
    (st.chatThreadsV1 = some (JsText.ofJson (Json.arr [])) →
        ChatStorage.loadThreads env st = ([ChatStorage.initialThread env], st)) ∧
    (∀ l, st.chatThreadsV1 = some (JsText.ofJson (Json.arr l)) → l ≠ [] →
        ChatStorage.loadThreads env st = (l.map decodeThread, st)) ∧
    (ChatStorage.initialThread env).id = env.threadId ∧
    (ChatStorage.initialThread env).title = "New chat" ∧
    (ChatStorage.initialThread env).messages =
      [{ id := env.messageId, role := .assistant,
         content := "Hi! I'm your AI assistant. Ask me anything to get started.",
         images := none }] := by
  refine ⟨?_, ?_, ?_, ?_, ?_, rfl, rfl, rfl⟩
  · intro h
    unfold ChatStorage.loadThreads
    rw [h]
  · intro s h hs
    unfold ChatStorage.loadThreads
    rw [h]
    simp only [JsText.asString]
    rw [if_neg hs]
  · intro j h hnotarr
    cases j with
    | arr l => exact absurd rfl (hnotarr l)
    | str s =>
      by_cases he : (JsText.ofJson (Json.str s)).asString = "" <;>
        simp [ChatStorage.loadThreads, h, he]
    | num n =>
      by_cases he : (JsText.ofJson (Json.num n)).asString = "" <;>
        simp [ChatStorage.loadThreads, h, he]
    | obj fs =>
      by_cases he : (JsText.ofJson (Json.obj fs)).asString = "" <;>
        simp [ChatStorage.loadThreads, h, he]
  · intro h
    simp [ChatStorage.loadThreads, h, JsText.asString, stringify_arr_ne_empty]
  · intro l h hl
    have hpos : 0 < l.length := List.length_pos.mpr hl
    simp [ChatStorage.loadThreads, h, JsText.asString, stringify_arr_ne_empty, hpos]

/-- Witness for C4 (amended) at four concrete storage states. -/
theorem c4_loadThreads_amended_witness :
    ChatStorage.loadThreads sampleFresh noQuotaStore =
      ([ChatStorage.initialThread sampleFresh], noQuotaStore) ∧
    ChatStorage.loadThreads sampleFresh
        { noQuotaStore with chatThreadsV1 := some (JsText.notJson "\x7bnot json") } =
      ([ChatStorage.initialThread sampleFresh], noQuotaStore) ∧
    ChatStorage.loadThreads sampleFresh
        { noQuotaStore with chatThreadsV1 := some (JsText.ofJson (Json.num 42)) } =
      ([ChatStorage.initialThread sampleFresh],
        { noQuotaStore with chatThreadsV1 := some (JsText.ofJson (Json.num 42)) }) ∧
    ChatStorage.loadThreads sampleFresh emptyArrStore =
      ([ChatStorage.initialThread sampleFresh], emptyArrStore) ∧
    ChatStorage.loadThreads sampleFresh
        { noQuotaStore with chatThreadsV1 := some (JsText.ofJson (encodeThreads [threadA])) } =
      ([threadA],
        { noQuotaStore with chatThreadsV1 := some (JsText.ofJson (encodeThreads [threadA])) }) := by
  refine ⟨?_, ?_, ?_, ?_, ?_⟩
  · exact (c4_loadThreads_amended sampleFresh noQuotaStore).1 rfl
  · exact (c4_loadThreads_amended sampleFresh _).2.1 "\x7bnot json" rfl (by decide)
  · exact (c4_loadThreads_amended sampleFresh _).2.2.1 (Json.num 42) rfl
      (fun l h => Json.noConfusion h)
  · exact (c4_loadThreads_amended sampleFresh emptyArrStore).2.2.2.1 rfl
  · have h := (c4_loadThreads_amended sampleFresh
        { noQuotaStore with
            chatThreadsV1 := some (JsText.ofJson (encodeThreads [threadA])) }).2.2.2.2.1
      [encodeThread threadA] (by rfl) (by simp)
    rw [h]
    rw [show [encodeThread threadA].map decodeThread = [threadA] from by
      simp only [List.map_cons, List.map_nil, decodeThread_encodeThread]]

/-- C4 counterexample: with the key holding the text `"[]"` (an empty JSON
array), `loadThreads` returns the seeded default thread but does **not**
clear the key, contradicting the claim that the key is cleared in every
fall-through case. -/
theorem c4_counterexample :
    (ChatStorage.loadThreads sampleFresh emptyArrStore).1 =
      [ChatStorage.initialThread sampleFresh] ∧
    (ChatStorage.loadThreads sampleFresh emptyArrStore).2.chatThreadsV1 =
      some (JsText.ofJson (Json.arr [])) :=
  ⟨rfl, rfl⟩

/-- C5 (amended): `saveThreads` is total and always ends in one of four
outcomes: the main write succeeds (`true`, payload stored); the main write
fails and the emergency write of the current thread (trimmed) succeeds
(`true`); the emergency write also fails (`false`, key deleted); or — the
case the original claim misses — no thread matches the stored
current-thread id, in which case it returns `false` leaving the key
untouched (it is **not** deleted). -/
theorem c5_saveThreads_amended (compress : String → String) (st : LocalStorage)
    (threads : List ChatThread) :
    (∃ st', ChatStorage.saveThreads compress st threads = (true, st') ∧
        st'.chatThreadsV1 = some (JsText.ofJson
          (encodeThreads (ChatStorage.savePayload compress threads)))) ∨
    (∃ ct, st.currentThreadIdV1.bind (fun cid => threads.find? (fun t => t.id == cid)) =
          some ct ∧
        ∃ st', ChatStorage.saveThreads compress st threads = (true, st') ∧
          st'.chatThreadsV1 = some (JsText.ofJson
            (encodeThreads [ChatStorage.trimMessages ct]))) ∨
    (∃ ct, st.currentThreadIdV1.bind (fun cid => threads.find? (fun t => t.id == cid)) =
          some ct ∧
        ChatStorage.saveThreads compress st threads =
          (false, { st with chatThreadsV1 := none })) ∨
    (st.currentThreadIdV1.bind (fun cid => threads.find? (fun t => t.id == cid)) = none ∧
        ChatStorage.saveThreads compress st threads = (false, st)) := by
  unfold ChatStorage.saveThreads
  cases hmain : setChatThreads st (encodeThreads (ChatStorage.savePayload compress threads)) with
  | some st' =>
    left
    refine ⟨st', rfl, ?_⟩
    rw [setChatThreads_eq_some hmain]
  | none =>
    cases hfind : st.currentThreadIdV1.bind
        (fun cid => threads.find? (fun t => t.id == cid)) with
    | some ct =>
      cases hem : setChatThreads st (encodeThreads [ChatStorage.trimMessages ct]) with
      | some st' =>
        right; left
        refine ⟨ct, rfl, st', ?_, ?_⟩
        · show (match setChatThreads st (encodeThreads [ChatStorage.trimMessages ct]) with
                | some st' => ((true : Bool), st')
                | none => ((false : Bool), { st with chatThreadsV1 := none })) = (true, st')
          rw [hem]
        · rw [setChatThreads_eq_some hem]
      | none =>
        right; right; left
        refine ⟨ct, rfl, ?_⟩
        show (match setChatThreads st (encodeThreads [ChatStorage.trimMessages ct]) with
              | some st' => ((true : Bool), st')
              | none => ((false : Bool), { st with chatThreadsV1 := none })) =
          (false, { st with chatThreadsV1 := none })
        rw [hem]
    | none =>
      right; right; right
      exact ⟨rfl, rfl⟩

/-- C5 counterexample: every write fails (quota 0) and no thread matches
the stored current-thread id — `saveThreads` returns `false` but the
stored key is **not** deleted, contradicting the claim that a failed
fallback always deletes the key. -/
theorem c5_counterexample :
    ChatStorage.saveThreads (fun s => s) zeroQuotaStore [] = (false, zeroQuotaStore) ∧
    zeroQuotaStore.chatThreadsV1 = some (JsText.ofJson (Json.arr [])) ∧
    some (JsText.ofJson (Json.arr [])) ≠ (none : Option JsText) := by
  refine ⟨?_, rfl, by simp⟩
  unfold ChatStorage.saveThreads
  have hpay : ChatStorage.savePayload (fun s => s) [] = [] := by
    have h0 : ChatStorage.trimThreads [] = [] := by
      simp [ChatStorage.trimThreads, List.mergeSort_nil]
    simp [ChatStorage.savePayload, h0, ChatStorage.aggressiveTrim]
  rw [hpay]
  rfl

/-- `bigContent` is one character over the byte budget. -/
theorem bigContent_length : bigContent.length = ChatStorage.MAX_STORAGE_SIZE + 1 := by
  simp [bigContent, String.length_mk, List.length_replicate]

/-- The serialization of `[bigThread]` exceeds the byte budget. -/
theorem bigThread_oversized :
    ChatStorage.MAX_STORAGE_SIZE < (Json.stringify (encodeThreads [bigThread])).length := by
  have h := content_length_le_stringify_encodeThreads
    (show bigThread ∈ [bigThread] by simp)
    (show bigMsg ∈ bigThread.messages by simp [bigThread])
  have h2 : bigMsg.content.length = ChatStorage.MAX_STORAGE_SIZE + 1 := bigContent_length
  omega

/-- Trimming and image optimization leave `[bigThread]` unchanged. -/
theorem bigThread_optimized :
    ((ChatStorage.trimThreads [bigThread]).map ChatStorage.trimMessages).map
      (ChatStorage.optimizeThreadImages (fun s => s)) = [bigThread] := by
  have h1 : ChatStorage.trimThreads [bigThread] = [bigThread] := by
    simp [ChatStorage.trimThreads, List.mergeSort_singleton, ChatStorage.MAX_THREADS]
  have h2 : ChatStorage.trimMessages bigThread = bigThread :=
    ChatStorage.trimMessages_of_le
      (by simp [bigThread, ChatStorage.MAX_MESSAGES_PER_THREAD])
  have h3 : ChatStorage.optimizeThreadImages (fun s => s) bigThread = bigThread :=
    ChatStorage.optimizeThreadImages_eq_self (by
      intro m hm
      simp only [bigThread, List.mem_singleton] at hm
      subst hm
      rfl)
  rw [h1]
  simp [h2, h3]

/-- The aggressive trim also leaves `[bigThread]` unchanged (one thread,
one message), so the oversized string goes to storage as is. -/
theorem bigThread_savePayload :
    ChatStorage.savePayload (fun s => s) [bigThread] = [bigThread] := by
  simp only [ChatStorage.savePayload, bigThread_optimized]
  rw [if_pos bigThread_oversized]
  unfold ChatStorage.aggressiveTrim
  rw [List.take_of_length_le (by simp)]
  simp only [List.map_cons, List.map_nil]
  have h5 : bigThread.messages.length - 20 = 0 := rfl
  rw [h5, List.drop_zero]

/-- C1 counterexample: saving a single thread whose one message is longer
than the whole budget succeeds, yet the string written under the key is
longer than `MAX_STORAGE_SIZE` — the aggressive-trim path re-serializes
without re-checking the size, so the budget is **not** enforced by
construction on every successful save. -/
theorem c1_counterexample :
    (ChatStorage.saveThreads (fun s => s) noQuotaStore [bigThread]).1 = true ∧
    ChatStorage.MAX_STORAGE_SIZE <
      storedLength (ChatStorage.saveThreads (fun s => s) noQuotaStore [bigThread]).2 := by
  rw [ChatStorage.saveThreads_of_no_quota [bigThread] rfl]
  refine ⟨rfl, ?_⟩
  simp only [storedLength, JsText.asString, bigThread_savePayload]
  exact bigThread_oversized

/-- C1 (amended): the byte budget holds for every successful save whose
**first** serialization is within budget (the path with no aggressive
trim); when the first serialization exceeds the budget the aggressive trim
is applied and the result is written without any size re-check, so the
written string can exceed the budget. -/
theorem c1_budget_amended (compress : String → String) (st : LocalStorage)
    (threads : List ChatThread) (hq : st.quota = none)
    (hb : (Json.stringify (encodeThreads
        (((ChatStorage.trimThreads threads).map ChatStorage.trimMessages).map
          (ChatStorage.optimizeThreadImages compress)))).length ≤
      ChatStorage.MAX_STORAGE_SIZE) :
    (ChatStorage.saveThreads compress st threads).1 = true ∧
    storedLength (ChatStorage.saveThreads compress st threads).2 ≤
      ChatStorage.MAX_STORAGE_SIZE := by
  rw [ChatStorage.saveThreads_of_no_quota threads hq]
  refine ⟨rfl, ?_⟩
  simp only [storedLength, JsText.asString]
  rw [ChatStorage.savePayload_of_le hb]
  exact hb

/-- Witness for C1 (amended) at the empty collection. -/
theorem c1_budget_amended_witness :
    (ChatStorage.saveThreads (fun s => s) noQuotaStore []).1 = true ∧
    storedLength (ChatStorage.saveThreads (fun s => s) noQuotaStore []).2 ≤
      ChatStorage.MAX_STORAGE_SIZE :=
  c1_budget_amended (fun s => s) noQuotaStore [] rfl (by
    rw [show ChatStorage.trimThreads [] = [] from by
      simp [ChatStorage.trimThreads, List.mergeSort_nil]]
    decide)

/-- The serialization of `[manyMsgThread]` exceeds the byte budget. -/
theorem manyMsgThread_oversized :
    ChatStorage.MAX_STORAGE_SIZE <
      (Json.stringify (encodeThreads [manyMsgThread])).length := by
  have h := content_length_le_stringify_encodeThreads
    (show manyMsgThread ∈ [manyMsgThread] by simp)
    (show bigMsg ∈ manyMsgThread.messages by simp [manyMsgThread])
  have h2 : bigMsg.content.length = ChatStorage.MAX_STORAGE_SIZE + 1 := bigContent_length
  omega

/-- Trimming and image optimization leave `[manyMsgThread]` unchanged
(21 messages is under the 50-message ceiling and there are no images). -/
theorem manyMsgThread_optimized :
    ((ChatStorage.trimThreads [manyMsgThread]).map ChatStorage.trimMessages).map
      (ChatStorage.optimizeThreadImages (fun s => s)) = [manyMsgThread] := by
  have h1 : ChatStorage.trimThreads [manyMsgThread] = [manyMsgThread] := by
    simp [ChatStorage.trimThreads, List.mergeSort_singleton, ChatStorage.MAX_THREADS]
  have h2 : ChatStorage.trimMessages manyMsgThread = manyMsgThread :=
    ChatStorage.trimMessages_of_le
      (by simp [manyMsgThread, ChatStorage.MAX_MESSAGES_PER_THREAD])
  have h3 : ChatStorage.optimizeThreadImages (fun s => s) manyMsgThread = manyMsgThread :=
    ChatStorage.optimizeThreadImages_eq_self (by
      intro m hm
      simp only [manyMsgThread, List.mem_cons, List.mem_append, List.mem_map,
        List.mem_singleton, List.not_mem_nil, or_false] at hm
      rcases hm with rfl | ⟨i, _, rfl⟩ | rfl <;> rfl)
  rw [h1]
  simp [h2, h3]

/-- The aggressive trim drops the first message of `manyMsgThread`. -/
theorem manyMsgThread_savePayload :
    ChatStorage.savePayload (fun s => s) [manyMsgThread] = [manyMsgTrimmed] := by
  simp only [ChatStorage.savePayload, manyMsgThread_optimized]
  rw [if_pos manyMsgThread_oversized]
  unfold ChatStorage.aggressiveTrim
  rw [List.take_of_length_le (by simp)]
  simp only [List.map_cons, List.map_nil]
  have hlen : manyMsgThread.messages.length - 20 = 1 := by
    simp [manyMsgThread]
  rw [hlen]
  rfl

/-- C2 counterexample: saving `[manyMsgThread]` (over budget, 21 messages)
takes the aggressive-trim path, which keeps only the last 20 messages —
the persisted thread's `messages[0]` is `midMsg 1`, not the thread's
original first message `midMsg 0`. -/
theorem c2_counterexample :
    (ChatStorage.saveThreads (fun s => s) noQuotaStore [manyMsgThread]).1 = true ∧
    (ChatStorage.loadThreads sampleFresh
        (ChatStorage.saveThreads (fun s => s) noQuotaStore [manyMsgThread]).2).1 =
      [manyMsgTrimmed] ∧
    manyMsgTrimmed.messages.head? = some (midMsg 1) ∧
    manyMsgThread.messages.head? = some (midMsg 0) ∧
    midMsg 1 ≠ midMsg 0 := by
  rw [ChatStorage.saveThreads_of_no_quota [manyMsgThread] rfl]
  refine ⟨rfl, ?_, rfl, rfl, by decide⟩
  simp only [manyMsgThread_savePayload]
  simp [ChatStorage.loadThreads, encodeThreads, JsText.asString, stringify_arr_ne_empty,
    decodeThread_encodeThread]

/-- C2 (amended): on the within-budget path (no aggressive trim) every
surviving thread keeps its first message: the store receives exactly the
trimmed collection, and `trimMessages` preserves `messages[0]`.  On the
aggressive-trim path only the last 20 messages survive, so the first
message is preserved only when a thread then has at most 20 messages. -/
theorem c2_greeting_amended (compress : String → String) (st : LocalStorage)
    (threads : List ChatThread) (hq : st.quota = none)
    (himg : ∀ t ∈ threads, ∀ m ∈ t.messages, m.images = none)
    (hb : (Json.stringify (encodeThreads
        ((ChatStorage.trimThreads threads).map ChatStorage.trimMessages))).length ≤
      ChatStorage.MAX_STORAGE_SIZE) :
    (ChatStorage.saveThreads compress st threads).1 = true ∧
    (ChatStorage.saveThreads compress st threads).2.chatThreadsV1 =
      some (JsText.ofJson (encodeThreads
        ((ChatStorage.trimThreads threads).map ChatStorage.trimMessages))) ∧
    ∀ t ∈ ChatStorage.trimThreads threads,
      (ChatStorage.trimMessages t).messages.head? = t.messages.head? := by
  have hopt : ((ChatStorage.trimThreads threads).map ChatStorage.trimMessages).map
      (ChatStorage.optimizeThreadImages compress) =
      (ChatStorage.trimThreads threads).map ChatStorage.trimMessages := by
    conv_rhs =>
      rw [← List.map_id ((ChatStorage.trimThreads threads).map ChatStorage.trimMessages)]
    refine List.map_congr_left fun x hx => ?_
    obtain ⟨t, ht, rfl⟩ := List.mem_map.mp hx
    exact ChatStorage.optimizeThreadImages_eq_self fun m hm =>
      himg t (ChatStorage.trimThreads_subset threads ht) m
        (ChatStorage.trimMessages_messages_subset hm)
  have hpay : ChatStorage.savePayload compress threads =
      (ChatStorage.trimThreads threads).map ChatStorage.trimMessages := by
    rw [ChatStorage.savePayload_of_le (by rw [hopt]; exact hb)]
    exact hopt
  rw [ChatStorage.saveThreads_of_no_quota threads hq]
  exact ⟨rfl, by simp only [hpay], fun t _ => ChatStorage.trimMessages_head? t⟩

/-- Witness for C2 (amended) at a small concrete collection. -/
theorem c2_greeting_amended_witness :
    (ChatStorage.saveThreads (fun s => s) noQuotaStore [threadA]).1 = true ∧
    (ChatStorage.saveThreads (fun s => s) noQuotaStore [threadA]).2.chatThreadsV1 =
      some (JsText.ofJson (encodeThreads
        ((ChatStorage.trimThreads [threadA]).map ChatStorage.trimMessages))) ∧
    ∀ t ∈ ChatStorage.trimThreads [threadA],
      (ChatStorage.trimMessages t).messages.head? = t.messages.head? :=
  c2_greeting_amended (fun s => s) noQuotaStore [threadA] rfl (by decide) (by
    rw [show ChatStorage.trimThreads [threadA] = [threadA] from by
      simp [ChatStorage.trimThreads, List.mergeSort_singleton, ChatStorage.MAX_THREADS]]
    decide)

/-- C3 (amended): the save/load round trip is the identity for nonempty
collections that are already sorted by `updatedAt` descending, within both
count ceilings, image-free and within the byte budget.  (Without the
sortedness hypothesis `saveThreads` reorders the collection; without the
ceilings it drops threads/messages; for the empty collection `loadThreads`
seeds a default thread instead.) -/
theorem c3_roundtrip_amended (compress : String → String) (st : LocalStorage)
    (env : ChatStorage.Fresh) (T : List ChatThread) (hq : st.quota = none)
    (hsorted : T.Pairwise (fun a b => b.updatedAt ≤ a.updatedAt))
    (hlen : T.length ≤ ChatStorage.MAX_THREADS)
    (hmsg : ∀ t ∈ T, t.messages.length ≤ ChatStorage.MAX_MESSAGES_PER_THREAD)
    (himg : ∀ t ∈ T, ∀ m ∈ t.messages, m.images = none)
    (hne : T ≠ [])
    (hb : (Json.stringify (encodeThreads T)).length ≤ ChatStorage.MAX_STORAGE_SIZE) :
    (ChatStorage.saveThreads compress st T).1 = true ∧
    (ChatStorage.loadThreads env (ChatStorage.saveThreads compress st T).2).1 = T := by
  have htrim : ChatStorage.trimThreads T = T := ChatStorage.trimThreads_eq_self hsorted hlen
  have hmap : T.map ChatStorage.trimMessages = T := by
    conv_rhs => rw [← List.map_id T]
    exact List.map_congr_left fun t ht => ChatStorage.trimMessages_of_le (hmsg t ht)
  have hopt : T.map (ChatStorage.optimizeThreadImages compress) = T := by
    conv_rhs => rw [← List.map_id T]
    exact List.map_congr_left fun t ht =>
      ChatStorage.optimizeThreadImages_eq_self (himg t ht)
  have hcomb : ((ChatStorage.trimThreads T).map ChatStorage.trimMessages).map
      (ChatStorage.optimizeThreadImages compress) = T := by
    rw [htrim, hmap, hopt]
  have hpay : ChatStorage.savePayload compress T = T := by
    rw [ChatStorage.savePayload_of_le (by rw [hcomb]; exact hb), hcomb]
  rw [ChatStorage.saveThreads_of_no_quota T hq]
  refine ⟨rfl, ?_⟩
  simp only [hpay]
  have hposT : 0 < T.length := List.length_pos.mpr hne
  have hdc : List.map (decodeThread ∘ encodeThread) T = T := by
    rw [← List.map_map]
    exact map_decodeThread_map_encodeThread T
  simp [ChatStorage.loadThreads, encodeThreads, JsText.asString, stringify_arr_ne_empty,
    hposT, hdc]

set_option maxRecDepth 100000 in
/-- Witness for C3 (amended) at a two-thread sorted collection. -/
theorem c3_roundtrip_amended_witness :
    (ChatStorage.saveThreads (fun s => s) noQuotaStore [threadB, threadA]).1 = true ∧
    (ChatStorage.loadThreads sampleFresh
        (ChatStorage.saveThreads (fun s => s) noQuotaStore [threadB, threadA]).2).1 =
      [threadB, threadA] :=
  c3_roundtrip_amended (fun s => s) noQuotaStore sampleFresh [threadB, threadA] rfl
    (by decide) (by decide) (by decide) (by decide) (by decide) (by decide)

set_option maxRecDepth 100000 in
unseal List.merge List.mergeSort in
/-- C3 counterexample: `[threadA, threadB]` (updated at 1 and 2, in that
order) is within budget and image-free, yet saving and loading returns
`[threadB, threadA]` — `saveThreads` sorts by `updatedAt` descending, so
the round trip is not the identity. -/
theorem c3_counterexample :
    (Json.stringify (encodeThreads [threadA, threadB])).length ≤
      ChatStorage.MAX_STORAGE_SIZE ∧
    (ChatStorage.loadThreads sampleFresh
        (ChatStorage.saveThreads (fun s => s) noQuotaStore [threadA, threadB]).2).1 =
      [threadB, threadA] ∧
    ([threadB, threadA] : List ChatThread) ≠ [threadA, threadB] := by
  refine ⟨by decide, ?_, by decide⟩
  rfl

/-- Every survivor of `trimThreads` strictly beats every evicted thread on
`updatedAt`, provided all `updatedAt` values are pairwise distinct. -/
theorem trimThreads_eviction {T : List ChatThread}
    (hdistinct : T.Pairwise (fun a b => a.updatedAt ≠ b.updatedAt)) :
    ∀ s ∈ ChatStorage.trimThreads T, ∀ u ∈ T, u ∉ ChatStorage.trimThreads T →
      u.updatedAt < s.updatedAt := by
  intro s hs u hu hnot
  have hperm : (T.mergeSort ChatStorage.threadLe).Perm T := T.mergeSort_perm _
  have hsorted : (T.mergeSort ChatStorage.threadLe).Pairwise
      (fun a b => b.updatedAt ≤ a.updatedAt) :=
    (List.sorted_mergeSort ChatStorage.threadLe_trans ChatStorage.threadLe_total T).imp
      (fun h => by simpa [ChatStorage.threadLe] using h)
  have hdS : (T.mergeSort ChatStorage.threadLe).Pairwise
      (fun a b => a.updatedAt ≠ b.updatedAt) :=
    (hperm.pairwise_iff (fun h => Ne.symm h)).mpr hdistinct
  have hsplit := List.take_append_drop ChatStorage.MAX_THREADS
    (T.mergeSort ChatStorage.threadLe)
  have hudrop : u ∈ (T.mergeSort ChatStorage.threadLe).drop ChatStorage.MAX_THREADS := by
    have huS : u ∈ (T.mergeSort ChatStorage.threadLe).take ChatStorage.MAX_THREADS ++
        (T.mergeSort ChatStorage.threadLe).drop ChatStorage.MAX_THREADS := by
      rw [hsplit]
      exact hperm.mem_iff.mpr hu
    rcases List.mem_append.mp huS with h1 | h2
    · exact absurd h1 hnot
    · exact h2
  have hstake : s ∈ (T.mergeSort ChatStorage.threadLe).take ChatStorage.MAX_THREADS := hs
  have hcross := (List.pairwise_append.mp (by rw [hsplit]; exact hsorted)).2.2 s hstake u hudrop
  have hcross2 := (List.pairwise_append.mp (by rw [hsplit]; exact hdS)).2.2 s hstake u hudrop
  omega

/-- C8: `trimThreads` keeps the top `MAX_THREADS` threads sorted by
`updatedAt` descending; consequently, saving 25 threads with pairwise
distinct `updatedAt` (each within ceilings, image-free, within budget)
persists exactly 20 threads — a subset of the input, each of which strictly
beats every evicted thread on `updatedAt`: the survivors are exactly the 20
with the highest `updatedAt`. -/
theorem c8_eviction_ordering (compress : String → String) (st : LocalStorage)
    (env : ChatStorage.Fresh) (T : List ChatThread) (hq : st.quota = none)
    (hcount : T.length = 25)
    (hdistinct : T.Pairwise (fun a b => a.updatedAt ≠ b.updatedAt))
    (hmsg : ∀ t ∈ T, t.messages.length ≤ ChatStorage.MAX_MESSAGES_PER_THREAD)
    (himg : ∀ t ∈ T, ∀ m ∈ t.messages, m.images = none)
    (hb : (Json.stringify (encodeThreads
        ((ChatStorage.trimThreads T).map ChatStorage.trimMessages))).length ≤
      ChatStorage.MAX_STORAGE_SIZE) :
    (ChatStorage.loadThreads env (ChatStorage.saveThreads compress st T).2).1 =
      ChatStorage.trimThreads T ∧
    (ChatStorage.trimThreads T).length = 20 ∧
    ChatStorage.trimThreads T ⊆ T ∧
    (ChatStorage.trimThreads T).Pairwise (fun a b => b.updatedAt ≤ a.updatedAt) ∧
    ∀ s ∈ ChatStorage.trimThreads T, ∀ u ∈ T, u ∉ ChatStorage.trimThreads T →
      u.updatedAt < s.updatedAt := by
  have hmap : (ChatStorage.trimThreads T).map ChatStorage.trimMessages =
      ChatStorage.trimThreads T := by
    conv_rhs => rw [← List.map_id (ChatStorage.trimThreads T)]
    exact List.map_congr_left fun t ht =>
      ChatStorage.trimMessages_of_le (hmsg t (ChatStorage.trimThreads_subset T ht))
  have hopt : ((ChatStorage.trimThreads T).map ChatStorage.trimMessages).map
      (ChatStorage.optimizeThreadImages compress) =
      (ChatStorage.trimThreads T).map ChatStorage.trimMessages := by
    conv_rhs =>
      rw [← List.map_id ((ChatStorage.trimThreads T).map ChatStorage.trimMessages)]
    refine List.map_congr_left fun x hx => ?_
    obtain ⟨t, ht, rfl⟩ := List.mem_map.mp hx
    exact ChatStorage.optimizeThreadImages_eq_self fun m hm =>
      himg t (ChatStorage.trimThreads_subset T ht) m
        (ChatStorage.trimMessages_messages_subset hm)
  have hpay : ChatStorage.savePayload compress T = ChatStorage.trimThreads T := by
    rw [ChatStorage.savePayload_of_le (by rw [hopt]; exact hb), hopt, hmap]
  have hlen20 : (ChatStorage.trimThreads T).length = 20 := by
    unfold ChatStorage.trimThreads
    rw [List.length_take, List.length_mergeSort, hcount]
    simp [ChatStorage.MAX_THREADS]
  rw [ChatStorage.saveThreads_of_no_quota T hq]
  refine ⟨?_, hlen20, ChatStorage.trimThreads_subset T, ChatStorage.trimThreads_sorted T,
    trimThreads_eviction hdistinct⟩
  simp only [hpay]
  have hpos : 0 < (ChatStorage.trimThreads T).length := by
    rw [hlen20]
    decide
  have hdc : List.map (decodeThread ∘ encodeThread) (ChatStorage.trimThreads T) =
      ChatStorage.trimThreads T := by
    rw [← List.map_map]
    exact map_decodeThread_map_encodeThread _
  simp [ChatStorage.loadThreads, encodeThreads, JsText.asString, stringify_arr_ne_empty,
    hpos, hdc]

set_option maxRecDepth 1000000 in
/-- Witness for C8 at 25 concrete threads with distinct `updatedAt`. -/
theorem c8_eviction_ordering_witness :
    (ChatStorage.loadThreads sampleFresh
        (ChatStorage.saveThreads (fun s => s) noQuotaStore w8Threads).2).1 =
      ChatStorage.trimThreads w8Threads ∧
    (ChatStorage.trimThreads w8Threads).length = 20 ∧
    ChatStorage.trimThreads w8Threads ⊆ w8Threads ∧
    (ChatStorage.trimThreads w8Threads).Pairwise (fun a b => b.updatedAt ≤ a.updatedAt) ∧
    ∀ s ∈ ChatStorage.trimThreads w8Threads, ∀ u ∈ w8Threads,
      u ∉ ChatStorage.trimThreads w8Threads → u.updatedAt < s.updatedAt :=
  c8_eviction_ordering (fun s => s) noQuotaStore sampleFresh w8Threads rfl
    (by decide) (by decide) (by decide) (by decide) (by
      have hms : w8Threads.mergeSort ChatStorage.threadLe = w8Threads :=
        List.mergeSort_of_sorted (by decide)
      rw [show ChatStorage.trimThreads w8Threads =
          w8Threads.take ChatStorage.MAX_THREADS from by
        unfold ChatStorage.trimThreads
        rw [hms]]
      decide)
